import Mathlib

/-!
Shallow embedding of `src/object_gps_position.py`, the core pipeline of the
coordinate converter app (pixel detection → GPS position), over the real
numbers, together with theorems settling the specification's claims.

Modelling conventions:
* Python/numpy floating-point numbers are modelled as real numbers `ℝ`.
* A Python function that can raise an exception is modelled as returning
  `Option _`: `none` is the raised exception.  `compute_K` raises
  `ZeroDivisionError` exactly when a sensor dimension is zero;
  `compute_object_world_coords` raises `numpy.linalg.LinAlgError` exactly
  when `K` is singular (that is what `np.linalg.inv` does).
* numpy's *element-wise array* division `b / b[-1]` does NOT raise on a zero
  divisor (it emits a warning and produces `inf`/`nan` entries); this
  non-raising behaviour is modelled by Lean's total real division, so the
  embedded function still returns `some _` there.
* Python's floor division `//` is `Int.floor` of the real quotient.
-/

noncomputable section

open Real

/-- `np.radians` / `np.deg2rad`: degrees to radians. -/
def radians (x : ℝ) : ℝ := x * (Real.pi / 180)

/-- `np.degrees` / `np.rad2deg`: radians to degrees. -/
def degrees (x : ℝ) : ℝ := x * (180 / Real.pi)

/-- `np.arctan2 y x`: the angle of the point `(x, y)` in `(-π, π]`. -/
def atan2 (y x : ℝ) : ℝ :=
  if 0 < x then Real.arctan (y / x)
  else if x < 0 then
    if 0 ≤ y then Real.arctan (y / x) + Real.pi else Real.arctan (y / x) - Real.pi
  else
    if 0 < y then Real.pi / 2 else if y < 0 then -(Real.pi / 2) else 0

/-- `compute_K` from `object_gps_position.py`: build the camera intrinsics
matrix `[[f_x, 0, c_x], [0, f_y, c_y], [0, 0, 1]]` with
`f_x = (focal_length[0] / sensor_size[0]) * image_size[0]`,
`f_y = (focal_length[1] / sensor_size[1]) * image_size[1]`,
`c_x = image_size[0] // 2`, `c_y = image_size[1] // 2`.
A zero sensor dimension raises `ZeroDivisionError` in Python,
modelled as `none`. -/
def compute_K (focal_length sensor_size image_size : ℝ × ℝ) :
    Option (Matrix (Fin 3) (Fin 3) ℝ) :=
  if sensor_size.1 = 0 ∨ sensor_size.2 = 0 then none
  else
    some !![focal_length.1 / sensor_size.1 * image_size.1, 0,
              ((⌊image_size.1 / 2⌋ : ℤ) : ℝ);
            0, focal_length.2 / sensor_size.2 * image_size.2,
              ((⌊image_size.2 / 2⌋ : ℤ) : ℝ);
            0, 0, 1]

/-- `compute_camera_rotation` from `object_gps_position.py`: the tilt rotation
`[[cos α, 0, sin α], [0, 1, 0], [-sin α, 0, cos α]]` for `α` in degrees. -/
def compute_camera_rotation (alpha : ℝ) : Matrix (Fin 3) (Fin 3) ℝ :=
  !![Real.cos (radians alpha), 0, Real.sin (radians alpha);
     0, 1, 0;
     -Real.sin (radians alpha), 0, Real.cos (radians alpha)]

/-- The back-projected ray `b = R_tilt.T @ inv(K) @ [x_im, y_im, 1]` of
`compute_object_world_coords`. -/
def back_ray (object_image_coords : ℝ × ℝ) (K R_tilt : Matrix (Fin 3) (Fin 3) ℝ) :
    Fin 3 → ℝ :=
  (R_tilt.transpose * K⁻¹).mulVec ![object_image_coords.1, object_image_coords.2, 1]

/-- `compute_object_world_coords` from `object_gps_position.py`:
`b = R_tilt.T @ np.linalg.inv(K) @ [x_im, y_im, 1]` followed by
`b = camera_altitude * b / b[-1]`.  `np.linalg.inv` raises on a singular `K`
(modelled as `none`); the element-wise division by `b[-1]` never raises
(numpy produces `inf`/`nan` entries when `b[-1] == 0`), so the scaling step
is modelled with total real division. -/
def compute_object_world_coords (object_image_coords : ℝ × ℝ)
    (K R_tilt : Matrix (Fin 3) (Fin 3) ℝ) (camera_altitude : ℝ) :
    Option (Fin 3 → ℝ) :=
  if K.det = 0 then none
  else
    some (fun i => camera_altitude * back_ray object_image_coords K R_tilt i /
      back_ray object_image_coords K R_tilt 2)

/-- `compute_object_gps_coords` from `object_gps_position.py`.  It computes
the ground distance, bearing and destination latitude/longitude
(`lat2_rad`, `lon2_rad`), but its return statement yields
`(degrees lat1_rad, degrees lon1_rad)` — the camera's own coordinates after a
degrees→radians→degrees round trip. -/
def compute_object_gps_coords (object_world_coords : Fin 3 → ℝ)
    (camera_gps : ℝ × ℝ) : ℝ × ℝ :=
  let ground_dist := Real.sqrt (object_world_coords 0 ^ 2 + object_world_coords 1 ^ 2)
  let lat0 := camera_gps.1
  let lon0 := camera_gps.2
  let x_obj := object_world_coords 0
  let y_obj := object_world_coords 1
  let lat1_rad := radians lat0
  let lon1_rad := radians lon0
  let R : ℝ := 6371000
  let bearing_rad := atan2 y_obj x_obj
  let lat2_rad := Real.arcsin (Real.sin lat1_rad * Real.cos (ground_dist / R) +
    Real.cos lat1_rad * Real.sin (ground_dist / R) * Real.cos bearing_rad)
  let lon2_rad := lon1_rad + atan2
    (Real.sin bearing_rad * Real.sin (ground_dist / R) * Real.cos lat1_rad)
    (Real.cos (ground_dist / R) - Real.sin lat1_rad * Real.sin lat2_rad)
  let lat1 := degrees lat1_rad
  let lon1 := degrees lon1_rad
  (lat1, lon1)

/-- The destination point of the spherical direct geodesic as the
specification's §4.4 describes `translate_to_gps`: a second definition,
following the spec's words, used to compare with the source's
`compute_object_gps_coords`. -/
def spec_translate_to_gps (world_offset : Fin 3 → ℝ) (camera_gps : ℝ × ℝ) : ℝ × ℝ :=
  let d := Real.sqrt (world_offset 0 ^ 2 + world_offset 1 ^ 2)
  let theta := atan2 (world_offset 1) (world_offset 0)
  let R : ℝ := 6371000
  let lat1 := radians camera_gps.1
  let lon1 := radians camera_gps.2
  let lat2 := Real.arcsin (Real.sin lat1 * Real.cos (d / R) +
    Real.cos lat1 * Real.sin (d / R) * Real.cos theta)
  let lon2 := lon1 + atan2 (Real.sin theta * Real.sin (d / R) * Real.cos lat1)
    (Real.cos (d / R) - Real.sin lat1 * Real.sin lat2)
  (degrees lat2, degrees lon2)

end

/-- degrees ∘ radians is the identity on `ℝ` (exact in real arithmetic). -/
theorem degrees_radians (x : ℝ) : degrees (radians x) = x := by
  unfold degrees radians
  field_simp

/-- The source's geodesic stage returns the camera's own coordinates for every
world offset: its return statement yields `(lat1, lon1)`. -/
theorem gps_pass_through (w : Fin 3 → ℝ) (g : ℝ × ℝ) :
    compute_object_gps_coords w g = g := by
  unfold compute_object_gps_coords
  simp [degrees_radians]

/-- C1: `compute_object_gps_coords` does not return the destination point of
the spherical direct geodesic: at world offset `(6371000·π/6, 0, 3)` and
camera GPS `(0, 0)` it returns the camera's own coordinates `(0, 0)`, while
the spec's §4.4 destination-point formula gives latitude `30` degrees. -/
theorem compute_object_gps_coords_not_destination :
    compute_object_gps_coords ![6371000 * (Real.pi / 6), 0, 3] (0, 0) = (0, 0) ∧
    (spec_translate_to_gps ![6371000 * (Real.pi / 6), 0, 3] (0, 0)).1 = 30 := by
  have hpi := Real.pi_pos
  have hx : (0 : ℝ) < 6371000 * (Real.pi / 6) := by positivity
  refine ⟨gps_pass_through _ _, ?_⟩
  unfold spec_translate_to_gps
  simp only [Matrix.cons_val_zero, Matrix.cons_val_one, Matrix.head_cons]
  have hd : Real.sqrt ((6371000 * (Real.pi / 6)) ^ 2 + 0 ^ 2) =
      6371000 * (Real.pi / 6) := by
    rw [show ((6371000 * (Real.pi / 6)) ^ 2 + 0 ^ 2 : ℝ) =
      (6371000 * (Real.pi / 6)) ^ 2 by ring, Real.sqrt_sq hx.le]
  have htheta : atan2 0 (6371000 * (Real.pi / 6)) = 0 := by
    unfold atan2
    rw [if_pos hx, zero_div, Real.arctan_zero]
  have hrad : radians 0 = 0 := by unfold radians; ring
  rw [hd, htheta, hrad]
  have hdr : (6371000 * (Real.pi / 6)) / 6371000 = Real.pi / 6 := by
    field_simp
    ring
  rw [hdr]
  simp only [Real.sin_zero, Real.cos_zero, zero_mul, one_mul, mul_one, zero_add]
  rw [Real.arcsin_sin (by linarith) (by linarith)]
  unfold degrees
  field_simp
  ring

/-- C2: the returned pair of `compute_object_gps_coords` does not depend on
the object's world coordinates at all, and always equals the camera's own
latitude and longitude (the degrees→radians→degrees round trip is exact over
`ℝ`). -/
theorem compute_object_gps_coords_ignores_world_offset (w w' : Fin 3 → ℝ)
    (g : ℝ × ℝ) :
    compute_object_gps_coords w g = compute_object_gps_coords w' g ∧
    compute_object_gps_coords w g = g := by
  rw [gps_pass_through, gps_pass_through]
  exact ⟨rfl, rfl⟩

/-- C9: on a world offset `(0, 0, z)` the geodesic stage returns the camera's
own GPS coordinate, for every `z`. -/
theorem compute_object_gps_coords_zero_offset (z : ℝ) (g : ℝ × ℝ) :
    compute_object_gps_coords ![0, 0, z] g = g :=
  gps_pass_through _ g

/-- `compute_K` succeeds whenever no sensor dimension is zero, returning the
intrinsics matrix written out. -/
theorem compute_K_some (f s i : ℝ × ℝ) (hs1 : s.1 ≠ 0) (hs2 : s.2 ≠ 0) :
    compute_K f s i =
      some !![f.1 / s.1 * i.1, 0, ((⌊i.1 / 2⌋ : ℤ) : ℝ);
              0, f.2 / s.2 * i.2, ((⌊i.2 / 2⌋ : ℤ) : ℝ);
              0, 0, 1] := by
  unfold compute_K
  rw [if_neg]
  push_neg
  exact ⟨hs1, hs2⟩

/-- C6: with positive focal, sensor and image parameters, `compute_K` returns
the intrinsics matrix `[[f_x, 0, c_x], [0, f_y, c_y], [0, 0, 1]]` with
`f_x = f_x_mm / w_mm * W_px`, `f_y = f_y_mm / h_mm * H_px`,
`c_x = ⌊W_px / 2⌋`, `c_y = ⌊H_px / 2⌋`. -/
theorem compute_K_builds_intrinsics (f s i : ℝ × ℝ)
    (hf1 : 0 < f.1) (hf2 : 0 < f.2) (hs1 : 0 < s.1) (hs2 : 0 < s.2)
    (hi1 : 0 < i.1) (hi2 : 0 < i.2) :
    compute_K f s i =
      some !![f.1 / s.1 * i.1, 0, ((⌊i.1 / 2⌋ : ℤ) : ℝ);
              0, f.2 / s.2 * i.2, ((⌊i.2 / 2⌋ : ℤ) : ℝ);
              0, 0, 1] :=
  compute_K_some f s i (ne_of_gt hs1) (ne_of_gt hs2)

/-- Witness for C6 at focal `(1,1)`, sensor `(1,1)`, image `(2,2)`. -/
theorem compute_K_builds_intrinsics_witness :
    ((0 : ℝ) < 1 ∧ (0 : ℝ) < 2) ∧
    compute_K (1, 1) (1, 1) (2, 2) =
      some !![(1 : ℝ) / 1 * 2, 0, ((⌊(2 : ℝ) / 2⌋ : ℤ) : ℝ);
              0, (1 : ℝ) / 1 * 2, ((⌊(2 : ℝ) / 2⌋ : ℤ) : ℝ);
              0, 0, 1] :=
  ⟨⟨by norm_num, by norm_num⟩,
    compute_K_builds_intrinsics (1, 1) (1, 1) (2, 2) (by norm_num) (by norm_num)
      (by norm_num) (by norm_num) (by norm_num) (by norm_num)⟩

/-- C8 counterexample: halving the focal lengths while doubling the sensor
dimensions does NOT leave `f_x` unchanged: at focal `(4, 4)`, sensor `(1, 1)`,
image `(1, 1)`, the transformed call gives `f_x = 1` while the original gives
`f_x = 4`. -/
theorem compute_K_halve_focal_double_sensor_changes_fx :
    Option.map (fun M => M 0 0)
        (compute_K ((4 : ℝ) / 2, (4 : ℝ) / 2) (2 * 1, 2 * 1) (1, 1)) ≠
      Option.map (fun M => M 0 0) (compute_K (4, 4) (1, 1) (1, 1)) := by
  unfold compute_K
  norm_num

/-- C8 amended: doubling the sensor dimensions while *doubling* (not halving)
the focal lengths leaves the pixel-unit focal entries `f_x` and `f_y` of
`compute_K` unchanged. -/
theorem compute_K_double_focal_double_sensor_fx_unchanged (f s i : ℝ × ℝ)
    (hs1 : 0 < s.1) (hs2 : 0 < s.2) :
    ∃ A B, compute_K f s i = some A ∧
      compute_K (2 * f.1, 2 * f.2) (2 * s.1, 2 * s.2) i = some B ∧
      B 0 0 = A 0 0 ∧ B 1 1 = A 1 1 := by
  have h1 : compute_K f s i =
      some !![f.1 / s.1 * i.1, 0, ((⌊i.1 / 2⌋ : ℤ) : ℝ);
              0, f.2 / s.2 * i.2, ((⌊i.2 / 2⌋ : ℤ) : ℝ);
              0, 0, 1] := by
    unfold compute_K
    rw [if_neg]
    push_neg
    exact ⟨ne_of_gt hs1, ne_of_gt hs2⟩
  have h2 : compute_K (2 * f.1, 2 * f.2) (2 * s.1, 2 * s.2) i =
      some !![2 * f.1 / (2 * s.1) * i.1, 0, ((⌊i.1 / 2⌋ : ℤ) : ℝ);
              0, 2 * f.2 / (2 * s.2) * i.2, ((⌊i.2 / 2⌋ : ℤ) : ℝ);
              0, 0, 1] := by
    unfold compute_K
    rw [if_neg]
    push_neg
    constructor <;> positivity
  refine ⟨_, _, h1, h2, ?_, ?_⟩
  · simp only [Matrix.of_apply, Matrix.cons_val_zero]
    rw [mul_div_mul_left f.1 s.1 (by norm_num : (2 : ℝ) ≠ 0)]
  · simp only [Matrix.of_apply, Matrix.cons_val_one, Matrix.head_cons]
    rw [mul_div_mul_left f.2 s.2 (by norm_num : (2 : ℝ) ≠ 0)]

/-- Witness for the amended C8 at focal `(3, 3)`, sensor `(1, 1)`,
image `(2, 2)`. -/
theorem compute_K_double_focal_double_sensor_fx_unchanged_witness :
    (0 : ℝ) < 1 ∧
    ∃ A B, compute_K (3, 3) (1, 1) (2, 2) = some A ∧
      compute_K (2 * 3, 2 * 3) (2 * 1, 2 * 1) (2, 2) = some B ∧
      B 0 0 = A 0 0 ∧ B 1 1 = A 1 1 :=
  ⟨by norm_num,
    compute_K_double_focal_double_sensor_fx_unchanged (3, 3) (1, 1) (2, 2)
      (by norm_num) (by norm_num)⟩

/-- C4: the pipeline performs no input validation.  A zero sensor dimension
does fail (Python `ZeroDivisionError`), but a *negative* sensor dimension
yields an ordinary intrinsics matrix, and a negative camera altitude flows
through `compute_object_world_coords` to an ordinary numeric result: no
configuration error is surfaced. -/
theorem pipeline_accepts_nonpositive_inputs :
    compute_K (24, 24) (0, 13) (3840, 2160) = none ∧
    (compute_K (24, 24) (-1, 13) (3840, 2160)).isSome = true ∧
    (compute_object_world_coords (0, 0) 1 1 (-5)).isSome = true := by
  refine ⟨?_, ?_, ?_⟩
  · unfold compute_K
    norm_num
  · unfold compute_K
    norm_num
  · unfold compute_object_world_coords
    rw [if_neg]
    · rfl
    · rw [Matrix.det_one]
      norm_num

/-- The transpose of the tilt rotation, written out as a matrix literal. -/
theorem rotation_transpose (alpha : ℝ) :
    (compute_camera_rotation alpha).transpose =
      !![Real.cos (radians alpha), 0, -Real.sin (radians alpha);
         0, 1, 0;
         Real.sin (radians alpha), 0, Real.cos (radians alpha)] := by
  unfold compute_camera_rotation
  ext i j
  fin_cases i <;> fin_cases j <;> rfl

/-- C7: for every tilt angle `alpha`, the rotation built by
`compute_camera_rotation` satisfies `R * Rᵀ = 1` and `det R = 1`. -/
theorem compute_camera_rotation_orthonormal (alpha : ℝ) :
    compute_camera_rotation alpha * (compute_camera_rotation alpha).transpose = 1 ∧
    (compute_camera_rotation alpha).det = 1 := by
  have h := Real.sin_sq_add_cos_sq (radians alpha)
  constructor
  · rw [rotation_transpose]
    unfold compute_camera_rotation
    rw [Matrix.mul_fin_three, Matrix.one_fin_three]
    ext i j
    fin_cases i <;> fin_cases j <;> simp [Matrix.vecHead, Matrix.vecTail] <;>
      nlinarith [h]
  · rw [Matrix.det_fin_three]
    unfold compute_camera_rotation
    simp
    nlinarith [h]

/-- C3: a horizon-grazing pixel does not raise a domain failure: with `K = 1`,
`alpha = 90°`, pixel `(0, 0)` and altitude `3`, the back-projected ray has
third component `0`, yet `compute_object_world_coords` still returns an
ordinary `some` result (numpy's element-wise division by zero only warns). -/
theorem compute_object_world_coords_horizon_no_failure :
    back_ray (0, 0) 1 (compute_camera_rotation 90) 2 = 0 ∧
    (compute_object_world_coords (0, 0) 1 (compute_camera_rotation 90) 3).isSome
      = true := by
  have h90 : radians 90 = Real.pi / 2 := by unfold radians; ring
  constructor
  · unfold back_ray
    rw [inv_one, mul_one, rotation_transpose, h90]
    simp [Real.cos_pi_div_two]
  · unfold compute_object_world_coords
    rw [if_neg]
    · rfl
    · rw [Matrix.det_one]
      norm_num

/-- C5: whenever `K` is invertible and the back-projected ray's third
component is nonzero, `compute_object_world_coords` succeeds and the third
coordinate of its result equals the supplied camera altitude. -/
theorem compute_object_world_coords_third_eq_altitude (p : ℝ × ℝ)
    (K R_tilt : Matrix (Fin 3) (Fin 3) ℝ) (a : ℝ)
    (hdet : K.det ≠ 0) (hb : back_ray p K R_tilt 2 ≠ 0) :
    ∃ v, compute_object_world_coords p K R_tilt a = some v ∧ v 2 = a := by
  refine ⟨_, by unfold compute_object_world_coords; rw [if_neg hdet], ?_⟩
  rw [mul_div_assoc, div_self hb, mul_one]

/-- Witness for C5 at pixel `(0, 0)`, `K = R = 1`, altitude `1`. -/
theorem compute_object_world_coords_third_eq_altitude_witness :
    (1 : Matrix (Fin 3) (Fin 3) ℝ).det ≠ 0 ∧ back_ray (0, 0) 1 1 2 ≠ 0 ∧
    ∃ v, compute_object_world_coords (0, 0) 1 1 1 = some v ∧ v 2 = 1 := by
  have hdet : (1 : Matrix (Fin 3) (Fin 3) ℝ).det ≠ 0 := by
    rw [Matrix.det_one]; norm_num
  have hb : back_ray ((0 : ℝ), (0 : ℝ)) 1 1 2 ≠ 0 := by
    unfold back_ray
    rw [inv_one, Matrix.transpose_one, mul_one, Matrix.one_mulVec]
    norm_num
  exact ⟨hdet, hb, compute_object_world_coords_third_eq_altitude (0, 0) 1 1 1 hdet hb⟩

/-- `alpha = 0` gives the identity tilt rotation. -/
theorem rotation_zero : compute_camera_rotation 0 = 1 := by
  have hrad : radians 0 = 0 := by unfold radians; ring
  unfold compute_camera_rotation
  rw [hrad, Real.cos_zero, Real.sin_zero, neg_zero, Matrix.one_fin_three]

/-- Determinant of an intrinsics-shaped matrix. -/
theorem det_intrinsics (fx fy cx cy : ℝ) :
    (!![fx, 0, cx; 0, fy, cy; 0, 0, 1] : Matrix (Fin 3) (Fin 3) ℝ).det = fx * fy := by
  rw [Matrix.det_fin_three]
  simp [Matrix.vecHead, Matrix.vecTail]

/-- Inverting `A⁻¹ *ᵥ v` via a forward multiplication. -/
theorem inv_mulVec_eq_of_mulVec_eq (A : Matrix (Fin 3) (Fin 3) ℝ) (v w : Fin 3 → ℝ)
    (hA : IsUnit A.det) (hw : A.mulVec w = v) : A⁻¹.mulVec v = w := by
  rw [← hw, Matrix.mulVec_mulVec, Matrix.nonsing_inv_mul A hA, Matrix.one_mulVec]

/-- An intrinsics-shaped matrix sends `(0, 0, 1)` to `(c_x, c_y, 1)`. -/
theorem intrinsics_mulVec_e3 (fx fy cx cy : ℝ) :
    (!![fx, 0, cx; 0, fy, cy; 0, 0, 1] : Matrix (Fin 3) (Fin 3) ℝ).mulVec ![0, 0, 1]
      = ![cx, cy, 1] := by
  funext j
  fin_cases j <;> simp [Matrix.mulVec, Matrix.vecHead, Matrix.vecTail]

/-- C10: projecting the principal point `(c_x, c_y)` with zero tilt through
`compute_object_world_coords` yields a world offset with `x = y = 0`, for any
positive camera parameters and altitude. -/
theorem principal_point_zero_tilt_origin (f s i : ℝ × ℝ) (a : ℝ)
    (hf1 : 0 < f.1) (hf2 : 0 < f.2) (hs1 : 0 < s.1) (hs2 : 0 < s.2)
    (hi1 : 0 < i.1) (hi2 : 0 < i.2) (ha : 0 < a) :
    ∃ K v, compute_K f s i = some K ∧
      compute_object_world_coords (((⌊i.1 / 2⌋ : ℤ) : ℝ), ((⌊i.2 / 2⌋ : ℤ) : ℝ)) K
        (compute_camera_rotation 0) a = some v ∧ v 0 = 0 ∧ v 1 = 0 := by
  have hK := compute_K_some f s i (ne_of_gt hs1) (ne_of_gt hs2)
  set M : Matrix (Fin 3) (Fin 3) ℝ :=
    !![f.1 / s.1 * i.1, 0, ((⌊i.1 / 2⌋ : ℤ) : ℝ);
       0, f.2 / s.2 * i.2, ((⌊i.2 / 2⌋ : ℤ) : ℝ);
       0, 0, 1] with hM
  have hdet : M.det = (f.1 / s.1 * i.1) * (f.2 / s.2 * i.2) := by
    rw [hM]; exact det_intrinsics _ _ _ _
  have hdetne : M.det ≠ 0 := by
    rw [hdet]; positivity
  have hb : back_ray (((⌊i.1 / 2⌋ : ℤ) : ℝ), ((⌊i.2 / 2⌋ : ℤ) : ℝ)) M
      (compute_camera_rotation 0) = ![0, 0, 1] := by
    unfold back_ray
    rw [rotation_zero, Matrix.transpose_one, one_mul]
    exact inv_mulVec_eq_of_mulVec_eq M _ _ (isUnit_iff_ne_zero.mpr hdetne)
      (by rw [hM]; exact intrinsics_mulVec_e3 _ _ _ _)
  have hw : compute_object_world_coords
      (((⌊i.1 / 2⌋ : ℤ) : ℝ), ((⌊i.2 / 2⌋ : ℤ) : ℝ)) M (compute_camera_rotation 0) a =
      some (fun j => a * back_ray (((⌊i.1 / 2⌋ : ℤ) : ℝ), ((⌊i.2 / 2⌋ : ℤ) : ℝ)) M
        (compute_camera_rotation 0) j /
        back_ray (((⌊i.1 / 2⌋ : ℤ) : ℝ), ((⌊i.2 / 2⌋ : ℤ) : ℝ)) M
        (compute_camera_rotation 0) 2) := by
    unfold compute_object_world_coords
    rw [if_neg hdetne]
  refine ⟨M, _, hK, hw, ?_, ?_⟩
  · simp [hb]
  · simp [hb]

/-- Witness for C10 at focal `(1, 1)`, sensor `(1, 1)`, image `(2, 2)`,
altitude `1`. -/
theorem principal_point_zero_tilt_origin_witness :
    ((0 : ℝ) < 1 ∧ (0 : ℝ) < 2) ∧
    ∃ K v, compute_K (1, 1) (1, 1) (2, 2) = some K ∧
      compute_object_world_coords (((⌊(2 : ℝ) / 2⌋ : ℤ) : ℝ), ((⌊(2 : ℝ) / 2⌋ : ℤ) : ℝ)) K
        (compute_camera_rotation 0) 1 = some v ∧ v 0 = 0 ∧ v 1 = 0 :=
  ⟨⟨by norm_num, by norm_num⟩,
    principal_point_zero_tilt_origin (1, 1) (1, 1) (2, 2) 1 (by norm_num) (by norm_num)
      (by norm_num) (by norm_num) (by norm_num) (by norm_num) (by norm_num)⟩
